import Mathlib

set_option maxHeartbeats 1000000

/-!
Verification development for `HARK/econforgeinterp.py` (class `LinearFast`),
a multilinear interpolation wrapper around the econforge `interpolation`
package.  The Python file is shallowly embedded below: numpy arrays become
`NpArray` (a shape together with flat rational data), the value tensor
becomes `Tensor`, and the external econforge primitives `eval_linear` /
`eval_spline` / `CGrid` / the extrapolation option constants — which live
outside this repository — are modelled from the specification's description
of the multilinear interpolant and its three extrapolation policies.
Floating-point numbers are modelled by rationals, as the specification's
properties are all stated "up to floating-point rounding".
-/

/-- A D-dimensional tensor of rational values; `f_val` in the Python code.
A 0-dimensional tensor is a `leaf`, a (d+1)-dimensional one is a `node`
whose children are indexed along the first axis. -/
inductive Tensor where
  | leaf : ℚ → Tensor
  | node : List Tensor → Tensor

mutual
/-- Boolean (structural) equality of tensors. -/
def Tensor.beq : Tensor → Tensor → Bool
  | .leaf a, .leaf b => a == b
  | .node as, .node bs => Tensor.beqList as bs
  | _, _ => false

/-- Boolean equality of lists of tensors. -/
def Tensor.beqList : List Tensor → List Tensor → Bool
  | [], [] => true
  | a :: as, b :: bs => Tensor.beq a b && Tensor.beqList as bs
  | _, _ => false
end

/-- Entry of the value tensor at a multi-index: `f_val[i, j, k]` is
`Tensor.get f_val [i, j, k]`.  Out-of-range or ill-shaped access defaults. -/
def Tensor.get : Tensor → List Nat → ℚ
  | .leaf v, [] => v
  | .node ts, i :: is => Tensor.get (ts.getD i (.leaf 0)) is
  | _, _ => 0

mutual
/-- `Tensor.conformsB t ns = true` iff `t` is a well-formed tensor of shape `ns`:
a leaf for the empty shape, and for shape `n :: ns` a node with exactly `n`
children, each of shape `ns`. -/
def Tensor.conformsB : Tensor → List Nat → Bool
  | .leaf _, [] => true
  | .node ts, n :: ns => decide (ts.length = n) && Tensor.conformsListB ts ns
  | _, _ => false

/-- All tensors in the list conform to the given shape. -/
def Tensor.conformsListB : List Tensor → List Nat → Bool
  | [], _ => true
  | t :: ts, ns => Tensor.conformsB t ns && Tensor.conformsListB ts ns
end

/-- Modelled from the spec: the extrapolation option constants
`xto.LINEAR`, `xto.NEAREST`, `xto.CONSTANT` of the external econforge
`interpolation.splines.extrap_options` module (not part of this repository). -/
inductive ExtrapOption where
  | LINEAR : ExtrapOption
  | NEAREST : ExtrapOption
  | CONSTANT : ExtrapOption
deriving DecidableEq

/-- The module-level dictionary `extrap_opts` mapping the recognized mode
strings to the econforge option constants; lookup of any other string is a
`KeyError`, modelled by `none`. -/
def extrap_opts (m : String) : Option ExtrapOption :=
  if m = "linear" then some ExtrapOption.LINEAR
  else if m = "nearest" then some ExtrapOption.NEAREST
  else if m = "constant" then some ExtrapOption.CONSTANT
  else none

/-- Clamp a coordinate onto the bounding interval of one grid axis. -/
def clampCoord (g : List ℚ) (x : ℚ) : ℚ :=
  max (g.headD 0) (min (g.getLastD 0) x)

/-- Modelled from the spec: effect of an extrapolation option on one query
coordinate.  Per the spec (§4.1), "nearest" and "constant" clamp each
out-of-range coordinate to the nearest grid boundary before interpolating,
while "linear" leaves the coordinate unchanged so the multilinear formula
extends beyond the boundary. -/
def ExtrapOption.apply : ExtrapOption → List ℚ → ℚ → ℚ
  | .LINEAR, _, x => x
  | .NEAREST, g, x => clampCoord g x
  | .CONSTANT, g, x => clampCoord g x

/-- Number of grid knots that are `≤ x` (a searchsorted-style rank). -/
def rank (g : List ℚ) (x : ℚ) : Nat :=
  g.countP (fun t => decide (t ≤ x))

/-- Index of the grid cell used for coordinate `x` on axis `g`: the cell
`[g i, g (i+1)]` with `i = clamp (rank - 1) to [0, n-2]`, as in a clamped
`searchsorted`. -/
def cellIndex (g : List ℚ) (x : ℚ) : Nat :=
  min (g.length - 2) (rank g x - 1)

/-- Modelled from the spec: the piecewise-multilinear interpolant over a
tensor-product grid, evaluated recursively one axis at a time.  On each axis
the bracketing cell is located and the two sub-tensor evaluations are blended
with the barycentric weight; out-of-range coordinates use the boundary cell,
which yields linear extrapolation when coordinates are not pre-clamped. -/
def evalML : List (List ℚ) → Tensor → List ℚ → ℚ
  | g :: gs, .node ts, x :: xs =>
    let i := cellIndex g x
    let x0 := g.getD i 0
    let x1 := g.getD (i + 1) 0
    let lam := (x - x0) / (x1 - x0)
    (1 - lam) * evalML gs (ts.getD i (.leaf 0)) xs
      + lam * evalML gs (ts.getD (i + 1) (.leaf 0)) xs
  | _, .leaf v, _ => v
  | _, _, _ => 0

/-- Modelled from the spec: evaluation of a partial derivative of the
multilinear interpolant.  `ds` gives the per-axis derivative orders; order 0
blends as in `evalML`, order 1 takes the cell's difference quotient, and any
higher order of a multilinear function is zero. -/
def evalMLd : List (List ℚ) → Tensor → List Nat → List ℚ → ℚ
  | g :: gs, .node ts, d :: ds, x :: xs =>
    let i := cellIndex g x
    let x0 := g.getD i 0
    let x1 := g.getD (i + 1) 0
    let v0 := evalMLd gs (ts.getD i (.leaf 0)) ds xs
    let v1 := evalMLd gs (ts.getD (i + 1) (.leaf 0)) ds xs
    if d = 0 then (1 - (x - x0) / (x1 - x0)) * v0 + (x - x0) / (x1 - x0) * v1
    else if d = 1 then (v1 - v0) / (x1 - x0)
    else 0
  | _, .leaf v, _, _ => v
  | _, _, _, _ => 0

/-- Apply the extrapolation option coordinate-wise to one query point. -/
def applyModePt (opt : ExtrapOption) (grids : List (List ℚ)) (pt : List ℚ) : List ℚ :=
  List.zipWith (fun g x => opt.apply g x) grids pt

/-- Modelled from the spec: the econforge `eval_linear` primitive —
vectorized evaluation of the multilinear interpolant at a batch of query
points under the selected extrapolation option. -/
def eval_linear (Grid : List (List ℚ)) (f_val : Tensor)
    (points : List (List ℚ)) (opt : ExtrapOption) : List ℚ :=
  points.map (fun pt => evalML Grid f_val (applyModePt opt Grid pt))

/-- Modelled from the spec: the econforge `eval_spline` primitive with
`order=1` — for each query point, one output per requested derivative
specification, as a row of the returned matrix.  It receives the mode as a
string, as in the Python call site. -/
def eval_spline (Grid : List (List ℚ)) (f_val : Tensor)
    (points : List (List ℚ)) (diff : List (List Nat)) (extrap_mode : String) :
    List (List ℚ) :=
  let opt := (extrap_opts extrap_mode).getD ExtrapOption.LINEAR
  points.map (fun pt => diff.map (fun spec => evalMLd Grid f_val spec (applyModePt opt Grid pt)))

/-- A numpy array: a shape and flat row-major data. -/
structure NpArray where
  shape : List Nat
  data : List ℚ
deriving DecidableEq

/-- An argument as passed from Python: either a numpy array or a plain
Python list of numbers (which `np.asarray` accepts but which has no
`.shape` attribute). -/
inductive PyObj where
  | arr : NpArray → PyObj
  | list : List ℚ → PyObj
deriving DecidableEq

/-- `np.asarray`: the identity on arrays; a plain list of n numbers becomes
a one-dimensional array of shape (n,). -/
def asarray : PyObj → NpArray
  | .arr a => a
  | .list xs => ⟨[xs.length], xs⟩

/-- Reading the `.shape` attribute of a raw argument: defined for arrays,
an AttributeError (`none`) for plain lists. -/
def PyObj.shapeAttr : PyObj → Option (List Nat)
  | .arr a => some a.shape
  | .list _ => none

/-- `np.column_stack` on already-flattened columns, producing the list of
query points (rows).  For equal-length columns this is the matrix transpose,
with the row count read off the first column; an empty list of columns or
mismatched column lengths raise a `ValueError` in numpy, modelled by
`none`. -/
def column_stack (cols : List (List ℚ)) : Option (List (List ℚ)) :=
  match cols.head? with
  | none => none
  | some c =>
    if cols.all (fun col => decide (col.length = c.length)) then
      some ((List.range c.length).map (fun k => cols.map (fun col => col.getD k 0)))
    else none

/-- `np.reshape` of flat data into a target shape; fails unless the element
count matches the shape's product. -/
def npReshape (data : List ℚ) (shape : List Nat) : Option NpArray :=
  if data.length = shape.prod then some ⟨shape, data⟩ else none

/-- The `LinearFast` instance attributes set by `__init__`. -/
structure LinearFast where
  dim : Nat
  f_val : Tensor
  grid_list : List (List ℚ)
  extrap_mode : String
  extrap_options : ExtrapOption

/-- `LinearFast.__init__(f_val, grids, extrap_mode)`: stores the dimension,
values, grid list and mode, and looks the mode up in `extrap_opts`; an
unrecognized mode string raises (modelled by `Except.error` carrying the
KeyError message).  Nothing else is validated. -/
def LinearFast.init (f_val : Tensor) (grids : List (List ℚ))
    (extrap_mode : String) : Except String LinearFast :=
  match extrap_opts extrap_mode with
  | some opt => Except.ok ⟨grids.length, f_val, grids, extrap_mode, opt⟩
  | none => Except.error "extrap_mode must be one of linear, nearest, or constant"

/-- `LinearFast.__call__(*args)`: converts every argument with `np.asarray`,
column-stacks the flattened coordinates, calls `eval_linear`, and reshapes
the result to the shape of the first converted argument
(`array_args[0].shape`).  Any raised error is `none` (a `ValueError` from
`np.column_stack` on an empty argument list or on mismatched flattened
lengths, or a reshape to a mismatched size). -/
def LinearFast.call (self : LinearFast) (args : List PyObj) : Option NpArray := do
  let array_args := args.map asarray
  let pts ← column_stack (array_args.map NpArray.data)
  let f := eval_linear self.grid_list self.f_val pts self.extrap_options
  let first ← array_args.head?
  npReshape f first.shape

/-- Extract column `j` of the derivative matrix (`derivs[:, j]`); an
out-of-range column index is an IndexError (`none`). -/
def getCol : List (List ℚ) → Nat → Option (List ℚ)
  | [], _ => some []
  | row :: rows, j =>
    match row.get? j, getCol rows j with
    | some x, some xs => some (x :: xs)
    | _, _ => none

/-- The reshape loop of `_derivs`:
`[derivs[:, j].reshape(args[0].shape) for j in range(dim)]`.
Each iteration extracts column `j` and reshapes it to the `.shape` of the
first *raw* argument (`args[0].shape` — not the `asarray`-converted one),
failing with an AttributeError when that argument is a plain list. -/
def colsLoop (dmat : List (List ℚ)) (args : List PyObj) : Nat → Option (List NpArray)
  | 0 => some []
  | j + 1 => do
    let rest ← colsLoop dmat args j
    let col ← getCol dmat j
    let rawFirst ← args.head?
    let sh ← rawFirst.shapeAttr
    let a ← npReshape col sh
    return rest ++ [a]

/-- `LinearFast._derivs(deriv_tuple, *args)`: converts the arguments,
calls `eval_spline` on the column-stacked points with the requested
derivative specifications, then reshapes columns `0 .. self.dim - 1` of the
result (note: `range(self.dim)`, NOT `range(len(deriv_tuple))`). -/
def LinearFast._derivs (self : LinearFast) (deriv_tuple : List (List Nat))
    (args : List PyObj) : Option (List NpArray) := do
  let array_args := args.map asarray
  let pts ← column_stack (array_args.map NpArray.data)
  let dmat := eval_spline self.grid_list self.f_val pts deriv_tuple
    self.extrap_mode
  colsLoop dmat args self.dim

/-- The tuple of first-derivative specifications built by `gradient` and
`_eval_and_grad`: one spec per dimension, with a 1 in that dimension. -/
def gradTuple (dim : Nat) : List (List Nat) :=
  (List.range dim).map (fun i => (List.range dim).map (fun j => if j = i then 1 else 0))

/-- `LinearFast.gradient(*args)`: `_derivs` with one first-order derivative
specification per dimension. -/
def LinearFast.gradient (self : LinearFast) (args : List PyObj) :
    Option (List NpArray) :=
  self._derivs (gradTuple self.dim) args

/-- `LinearFast._eval_and_grad(*args)`: `_derivs` with the all-zeros spec
prepended to the gradient specs, returning `(results[0], results[1:])`. -/
def LinearFast._eval_and_grad (self : LinearFast) (args : List PyObj) :
    Option (NpArray × List NpArray) := do
  let eval_tup := [(List.range self.dim).map (fun _ => 0)]
  let results ← self._derivs (eval_tup ++ gradTuple self.dim) args
  let first ← results.head?
  return (first, results.drop 1)

/-- The class attribute `distance_criteria = ["f_val", "grid_list"]`. -/
def LinearFast.distance_criteria : List String := ["f_val", "grid_list"]

/-- Attribute equality between two instances, by attribute name. -/
def LinearFast.attrEq (a b : LinearFast) : String → Bool
  | "dim" => decide (a.dim = b.dim)
  | "f_val" => Tensor.beq a.f_val b.f_val
  | "grid_list" => decide (a.grid_list = b.grid_list)
  | "extrap_mode" => decide (a.extrap_mode = b.extrap_mode)
  | _ => false

/-- Modelled from the spec: the `MetricObject` comparison of `HARK.core`
(not under `src/`), which per the spec compares two instances for
memoization/distance purposes by the attributes named in the class's
`distance_criteria` list: the instances compare equal iff every listed
attribute is equal. -/
def metricEq (a b : LinearFast) : Bool :=
  LinearFast.distance_criteria.all (fun s => LinearFast.attrEq a b s)

/-- Package a single query point as one shape-(1,) numpy array per
coordinate, the calling convention of `__call__` and friends. -/
def ptArgs (pt : List ℚ) : List PyObj :=
  pt.map (fun c => PyObj.arr ⟨[1], [c]⟩)

/-- Scalar evaluation of the interpolator at a single point, through
`__call__`. -/
def LinearFast.evalAt (lf : LinearFast) (pt : List ℚ) : ℚ :=
  (((lf.call (ptArgs pt)).getD ⟨[], []⟩).data).getD 0 0

/-- Well-formed grid list: every axis has at least two knots and is strictly
increasing. -/
def wellFormedGrids (grids : List (List ℚ)) : Prop :=
  ∀ g ∈ grids, 2 ≤ g.length ∧ List.Chain' (· < ·) g

/-- The query point whose coordinates are the grid knots selected by a
multi-index. -/
def gridPoint (grids : List (List ℚ)) (idx : List Nat) : List ℚ :=
  List.zipWith (fun g i => g.getD i 0) grids idx

/-- Coordinate-wise clamp of a query point onto the grid's bounding box. -/
def clampPt (grids : List (List ℚ)) (pt : List ℚ) : List ℚ :=
  List.zipWith clampCoord grids pt

/-- The query point lies inside the grid's bounding box. -/
def inBox (grids : List (List ℚ)) (pt : List ℚ) : Prop :=
  ∀ p ∈ List.zip grids pt, p.1.headD 0 ≤ p.2 ∧ p.2 ≤ p.1.getLastD 0

/-- The 1-D scenario grid of the spec: axis [0, 1, 2, 3]. -/
def grid4 : List (List ℚ) := [[0, 1, 2, 3]]

/-- The 1-D scenario values of the spec: [0, 10, 20, 30]. -/
def val4 : Tensor := .node [.leaf 0, .leaf 10, .leaf 20, .leaf 30]

/-- The scenario interpolator under a chosen mode. -/
def lf4 (m : String) : LinearFast :=
  ((LinearFast.init val4 grid4 m).toOption).getD ⟨0, .leaf 0, [], "", .LINEAR⟩

/-- A minimal 1-D interpolator on axis [0, 1] with values [0, 10]. -/
def lf01 : LinearFast := ⟨1, .node [.leaf 0, .leaf 10], [[0, 1]], "linear", .LINEAR⟩

/-- The 2-D scenario grid of the spec: axes [0,1] and [0,1]. -/
def grids2 : List (List ℚ) := [[0, 1], [0, 1]]

/-- The 2-D scenario values of the spec: f(x,y) = x + y on the grid. -/
def vals2 : Tensor := .node [.node [.leaf 0, .leaf 1], .node [.leaf 1, .leaf 2]]

/-- The 2-D scenario interpolator under mode "linear". -/
def lf22 : LinearFast := ⟨2, vals2, grids2, "linear", .LINEAR⟩

/-- The 1-D interpolator of `lf01` under mode "nearest". -/
def lfN01 : LinearFast := ⟨1, .node [.leaf 0, .leaf 10], [[0, 1]], "nearest", .NEAREST⟩

/-- The 1-D interpolator of `lf01` under mode "constant". -/
def lfC01 : LinearFast := ⟨1, .node [.leaf 0, .leaf 10], [[0, 1]], "constant", .CONSTANT⟩

/-! ### Boolean tensor equality is propositional equality -/

mutual
theorem Tensor.beq_iff : ∀ a b : Tensor, (Tensor.beq a b = true) ↔ a = b
  | .leaf x, .leaf y => by simp [Tensor.beq]
  | .leaf _, .node _ => by simp [Tensor.beq]
  | .node _, .leaf _ => by simp [Tensor.beq]
  | .node xs, .node ys => by
    rw [Tensor.beq]
    simp [Tensor.beqList_iff xs ys]

theorem Tensor.beqList_iff : ∀ as bs : List Tensor, (Tensor.beqList as bs = true) ↔ as = bs
  | [], [] => by simp [Tensor.beqList]
  | [], _ :: _ => by simp [Tensor.beqList]
  | _ :: _, [] => by simp [Tensor.beqList]
  | x :: xs, y :: ys => by
    rw [Tensor.beqList]
    simp [Tensor.beq_iff x y, Tensor.beqList_iff xs ys]
end

/-! ### Basic pipeline lemmas -/

theorem call_cons (lf : LinearFast) (a : PyObj) (rest : List PyObj) :
    lf.call (a :: rest) =
      (column_stack (((a :: rest).map asarray).map NpArray.data)).bind
        (fun pts => npReshape
          (eval_linear lf.grid_list lf.f_val pts lf.extrap_options)
          (asarray a).shape) := rfl

theorem eval_linear_length (G : List (List ℚ)) (f : Tensor) (pts : List (List ℚ))
    (opt : ExtrapOption) : (eval_linear G f pts opt).length = pts.length := by
  simp [eval_linear]

theorem column_stack_spec {cols : List (List ℚ)} {n : Nat} (hne : cols ≠ [])
    (h : ∀ col ∈ cols, col.length = n) :
    ∃ pts, column_stack cols = some pts ∧ pts.length = n := by
  cases cols with
  | nil => exact absurd rfl hne
  | cons c rest =>
    have hc : c.length = n := h c (List.mem_cons_self _ _)
    have hall : ((c :: rest).all
        (fun col => decide (col.length = c.length))) = true := by
      rw [List.all_eq_true]
      intro col hcol
      simp only [decide_eq_true_eq]
      rw [h col hcol, hc]
    refine ⟨(List.range c.length).map
      (fun k => (c :: rest).map (fun col => col.getD k 0)), ?_, by simp [hc]⟩
    simp only [column_stack, List.head?_cons, hall, if_true]

theorem npReshape_eq_some {data : List ℚ} {shape : List Nat}
    (h : data.length = shape.prod) : npReshape data shape = some ⟨shape, data⟩ := by
  simp [npReshape, h]

theorem colsLoop_list_first_none (dmat : List (List ℚ)) (xs : List ℚ)
    (rest : List PyObj) (n : Nat) (hn : 0 < n) :
    colsLoop dmat (PyObj.list xs :: rest) n = none := by
  cases n with
  | zero => exact absurd hn (by simp)
  | succ k =>
    cases h1 : colsLoop dmat (PyObj.list xs :: rest) k <;>
      cases h2 : getCol dmat k <;>
        simp [colsLoop, h1, h2, PyObj.shapeAttr]

/-! ### Claim theorems (part 1) -/

/-- C3: construction fails with the configuration error (the `KeyError`
raised by `__init__`, named `InvalidConfiguration` in the spec) exactly when
the extrapolation-mode string is not one of "linear", "nearest", "constant";
for the three recognized strings it succeeds, and no other property of the
inputs is validated (the equivalence holds for every value tensor and grid
list). -/
theorem C3_init_validates_only_mode (f_val : Tensor) (grids : List (List ℚ))
    (m : String) :
    (∃ lf, LinearFast.init f_val grids m = Except.ok lf) ↔
      (m = "linear" ∨ m = "nearest" ∨ m = "constant") := by
  unfold LinearFast.init extrap_opts
  by_cases h1 : m = "linear" <;> by_cases h2 : m = "nearest" <;>
    by_cases h3 : m = "constant" <;> simp [h1, h2, h3]

/-- C4: on the 1-D grid [0,1,2,3] with values [0,10,20,30], Evaluate at
x = 1.5 returns 15 under every mode, and Evaluate at x = 5 returns 50 under
"linear" and 30 under "nearest" and "constant". -/
theorem C4_scenario_1d :
    (lf4 "linear").call (ptArgs [3/2]) = some ⟨[1], [15]⟩ ∧
    (lf4 "nearest").call (ptArgs [3/2]) = some ⟨[1], [15]⟩ ∧
    (lf4 "constant").call (ptArgs [3/2]) = some ⟨[1], [15]⟩ ∧
    (lf4 "linear").call (ptArgs [5]) = some ⟨[1], [50]⟩ ∧
    (lf4 "nearest").call (ptArgs [5]) = some ⟨[1], [30]⟩ ∧
    (lf4 "constant").call (ptArgs [5]) = some ⟨[1], [30]⟩ := by
  have h1 : lf4 "linear" = ⟨1, val4, grid4, "linear", ExtrapOption.LINEAR⟩ := rfl
  have h2 : lf4 "nearest" = ⟨1, val4, grid4, "nearest", ExtrapOption.NEAREST⟩ := rfl
  have h3 : lf4 "constant" = ⟨1, val4, grid4, "constant", ExtrapOption.CONSTANT⟩ := rfl
  refine ⟨?_, ?_, ?_, ?_, ?_, ?_⟩ <;>
    norm_num [h1, h2, h3, LinearFast.call, ptArgs, asarray,
      column_stack, eval_linear, applyModePt, ExtrapOption.apply, clampCoord,
      evalML, cellIndex, rank, npReshape, List.countP_cons, grid4, val4,
      List.range_succ, List.range_zero, Function.comp]

/-- C1 (failing input for the claim): on a 1-dimensional interpolator
(grid [0,1], values [0,10]) queried at x = 1/2, `_eval_and_grad` returns the
correct value half (equal to `__call__`) but an EMPTY derivative half,
whereas `gradient` returns the one derivative array [10].  The claim (and
the method's own docstring) promise D = 1 derivative arrays equal to
`gradient`; the code extracts only `range(self.dim)` columns from the
`dim + 1` requested specs and so drops the last derivative. -/
theorem C1_eval_and_grad_drops_last_derivative :
    lf01._eval_and_grad [PyObj.arr ⟨[1], [1/2]⟩] = some (⟨[1], [5]⟩, []) ∧
    lf01.gradient [PyObj.arr ⟨[1], [1/2]⟩] = some [⟨[1], [10]⟩] ∧
    lf01.call [PyObj.arr ⟨[1], [1/2]⟩] = some ⟨[1], [5]⟩ := by
  refine ⟨?_, ?_, ?_⟩ <;>
    norm_num [lf01, LinearFast._eval_and_grad, LinearFast.gradient,
      LinearFast._derivs, LinearFast.call, eval_spline, eval_linear, evalMLd,
      evalML, applyModePt, ExtrapOption.apply, extrap_opts, clampCoord,
      cellIndex, rank, colsLoop, getCol, gradTuple, PyObj.shapeAttr, asarray,
      column_stack, npReshape, List.countP_cons, List.range_succ,
      List.range_zero, Function.comp, List.mapM.loop]

/-- C2 (failing input for the claim): `_derivs` with TWO requested
derivative specifications ((0,) and (1,)) on a 1-dimensional interpolator
returns a list with a SINGLE output array (the first column only), because
the reshape loop iterates over `range(self.dim)` instead of
`range(len(deriv_tuple))`, contradicting the claim and the method's own
docstring ("List of the derivatives that were requested in the same order
as deriv_tuple"). -/
theorem C2_derivs_returns_dim_outputs_not_one_per_spec :
    lf01._derivs [[0], [1]] [PyObj.arr ⟨[1], [1/2]⟩] = some [⟨[1], [5]⟩] ∧
    ([[0], [1]] : List (List Nat)).length = 2 := by
  refine ⟨?_, rfl⟩
  norm_num [lf01, LinearFast._derivs, eval_spline, evalMLd, applyModePt,
    ExtrapOption.apply, extrap_opts, clampCoord, cellIndex, rank, colsLoop,
    getCol, PyObj.shapeAttr, asarray, column_stack, npReshape,
    List.countP_cons, List.range_succ, List.range_zero, Function.comp,
    List.mapM.loop]

/-- C10: `__call__` converts its arguments with `np.asarray` and so accepts
a plain Python list as first coordinate argument, returning a result (here
any further coordinate arguments have the matching flattened length, so
that `np.column_stack` accepts the batch); but `gradient` and
`_eval_and_grad` go through `_derivs`, whose reshape loop reads `.shape` of
the first RAW argument, so on the very same input they fail with an
attribute error (modelled by `none`). -/
theorem C10_call_accepts_lists_but_derivative_ops_fail (lf : LinearFast)
    (h : 0 < lf.dim) (xs : List ℚ) (rest : List PyObj)
    (hrest : ∀ a ∈ rest, (asarray a).data.length = xs.length) :
    (∃ r, lf.call (PyObj.list xs :: rest) = some r) ∧
    lf.gradient (PyObj.list xs :: rest) = none ∧
    lf._eval_and_grad (PyObj.list xs :: rest) = none := by
  have hcols : ∀ col ∈ ((PyObj.list xs :: rest).map asarray).map NpArray.data,
      col.length = xs.length := by
    intro col hcol
    simp only [List.map_cons, List.map_map, List.mem_cons, List.mem_map,
      Function.comp] at hcol
    rcases hcol with rfl | ⟨b, hb, rfl⟩
    · rfl
    · exact hrest b hb
  obtain ⟨pts, hpts, hptslen⟩ := column_stack_spec (by simp) hcols
  refine ⟨?_, ?_, ?_⟩
  · rw [call_cons, hpts]
    refine ⟨_, npReshape_eq_some ?_⟩
    rw [eval_linear_length, hptslen]
    show xs.length = (asarray (PyObj.list xs)).shape.prod
    simp [asarray]
  · have hd : lf.gradient (PyObj.list xs :: rest) =
        (column_stack (((PyObj.list xs :: rest).map asarray).map
          NpArray.data)).bind
          (fun pts => colsLoop (eval_spline lf.grid_list lf.f_val pts
            (gradTuple lf.dim) lf.extrap_mode) (PyObj.list xs :: rest)
            lf.dim) := rfl
    rw [hd, hpts]
    exact colsLoop_list_first_none _ _ _ _ h
  · have he : lf._eval_and_grad (PyObj.list xs :: rest) =
        ((column_stack (((PyObj.list xs :: rest).map asarray).map
          NpArray.data)).bind
          (fun pts => colsLoop (eval_spline lf.grid_list lf.f_val pts
            ([(List.range lf.dim).map (fun _ => 0)] ++ gradTuple lf.dim)
            lf.extrap_mode) (PyObj.list xs :: rest) lf.dim)).bind
          (fun results => (results.head?).bind
            (fun first => some (first, results.drop 1))) := rfl
    rw [he, hpts]
    rw [show (some pts).bind (fun pts => colsLoop (eval_spline lf.grid_list
        lf.f_val pts ([(List.range lf.dim).map (fun _ => 0)] ++
        gradTuple lf.dim) lf.extrap_mode) (PyObj.list xs :: rest) lf.dim) =
        colsLoop (eval_spline lf.grid_list lf.f_val pts
        ([(List.range lf.dim).map (fun _ => 0)] ++ gradTuple lf.dim)
        lf.extrap_mode) (PyObj.list xs :: rest) lf.dim from rfl]
    rw [colsLoop_list_first_none _ _ _ _ h]
    rfl

/-- C10 witness: concrete instance of the phenomenon on the 1-D
interpolator with grid [0,1], values [0,10], first argument the plain list
[1/2]. -/
theorem C10_witness :
    0 < lf01.dim ∧
    (∀ a ∈ ([] : List PyObj), (asarray a).data.length = ([1/2] : List ℚ).length) ∧
    ((∃ r, lf01.call [PyObj.list [1/2]] = some r) ∧
      lf01.gradient [PyObj.list [1/2]] = none ∧
      lf01._eval_and_grad [PyObj.list [1/2]] = none) :=
  ⟨by decide, by simp,
    C10_call_accepts_lists_but_derivative_ops_fail lf01 (by decide) [1/2] []
      (by simp)⟩

/-- C9: two instances compare equal for memoization/distance purposes (the
`MetricObject` comparison over the attributes listed in
`distance_criteria = ["f_val", "grid_list"]`) if and only if their value
tensors and grid axis lists are equal; the extrapolation mode is not part
of the comparison, so two instances differing only in mode (and its derived
option constant) compare equal. -/
theorem C9_metric_equality_ignores_mode :
    (∀ a b : LinearFast,
      metricEq a b = true ↔ (a.f_val = b.f_val ∧ a.grid_list = b.grid_list)) ∧
    (∀ (d : Nat) (f : Tensor) (g : List (List ℚ)) (m₁ m₂ : String)
      (o₁ o₂ : ExtrapOption),
      metricEq ⟨d, f, g, m₁, o₁⟩ ⟨d, f, g, m₂, o₂⟩ = true) := by
  constructor
  · intro a b
    simp [metricEq, LinearFast.distance_criteria, LinearFast.attrEq, Tensor.beq_iff]
  · intro d f g m₁ m₂ o₁ o₂
    simp [metricEq, LinearFast.distance_criteria, LinearFast.attrEq, Tensor.beq_iff]

/-! ### Sorted-axis lemmas -/

theorem getD_mem : ∀ (l : List ℚ) (j : Nat), j < l.length → l.getD j 0 ∈ l
  | a :: _, 0, _ => List.mem_cons_self a _
  | a :: t, j + 1, h =>
    List.mem_cons_of_mem a (getD_mem t j (by simpa using h))

theorem getLastD_cons_eq_getD : ∀ (a : ℚ) (g : List ℚ),
    (a :: g).getLastD 0 = (a :: g).getD g.length 0
  | _, [] => rfl
  | _, b :: t => getLastD_cons_eq_getD b t

theorem pairwise_of_chain' {g : List ℚ} (h : List.Chain' (· < ·) g) :
    List.Pairwise (· < ·) g :=
  List.chain'_iff_pairwise.mp h

theorem pairwise_getD_lt : ∀ (g : List ℚ), List.Pairwise (· < ·) g →
    ∀ i j : Nat, i < j → j < g.length → g.getD i 0 < g.getD j 0
  | a :: t, hp, 0, j + 1, _, hj => by
    have h1 := (List.pairwise_cons.mp hp).1
    exact h1 _ (getD_mem t j (by simpa using hj))
  | a :: t, hp, i + 1, j + 1, hij, hj =>
    pairwise_getD_lt t (List.pairwise_cons.mp hp).2 i j (by omega) (by simpa using hj)

theorem sorted_headD_le_getD {g : List ℚ} (hp : List.Pairwise (· < ·) g)
    {j : Nat} (hj : j < g.length) : g.headD 0 ≤ g.getD j 0 := by
  cases g with
  | nil => simp at hj
  | cons a t =>
    cases j with
    | zero => simp
    | succ k =>
      exact le_of_lt (pairwise_getD_lt (a :: t) hp 0 (k + 1) (by omega) hj)

theorem sorted_getD_le_lastD {g : List ℚ} (hp : List.Pairwise (· < ·) g)
    {j : Nat} (hj : j < g.length) : g.getD j 0 ≤ g.getLastD 0 := by
  cases g with
  | nil => simp at hj
  | cons a t =>
    rw [getLastD_cons_eq_getD]
    rcases Nat.lt_or_ge j t.length with h | h
    · exact le_of_lt (pairwise_getD_lt (a :: t) hp j t.length h (by simp))
    · have : j = t.length := by simp at hj; omega
      rw [this]

theorem sorted_headD_le_mem {g : List ℚ} (hp : List.Pairwise (· < ·) g) :
    ∀ a ∈ g, g.headD 0 ≤ a := by
  intro a ha
  cases g with
  | nil => simp at ha
  | cons b t =>
    rcases List.mem_cons.mp ha with rfl | h2
    · simp
    · exact le_of_lt ((List.pairwise_cons.mp hp).1 a h2)

theorem sorted_mem_le_lastD {g : List ℚ} (hp : List.Pairwise (· < ·) g) :
    ∀ a ∈ g, a ≤ g.getLastD 0 := by
  intro a ha
  obtain ⟨j, hj, rfl⟩ : ∃ j, ∃ h : j < g.length, g.getD j 0 = a := by
    obtain ⟨⟨j, hj⟩, rfl⟩ := List.mem_iff_get.mp ha
    exact ⟨j, hj, by rw [List.getD_eq_getElem _ _ hj]; simp [List.get_eq_getElem]⟩
  exact sorted_getD_le_lastD hp hj

/-! ### Rank and cell-index lemmas -/

theorem rank_cons (a : ℚ) (t : List ℚ) (x : ℚ) :
    rank (a :: t) x = rank t x + if a ≤ x then 1 else 0 := by
  simp [rank, List.countP_cons]

theorem rank_eq_zero {g : List ℚ} {x : ℚ} (h : ∀ a ∈ g, x < a) : rank g x = 0 := by
  apply List.countP_eq_zero.mpr
  intro a ha
  simpa using not_le.mpr (h a ha)

theorem rank_getD : ∀ (g : List ℚ), List.Pairwise (· < ·) g →
    ∀ j : Nat, j < g.length → rank g (g.getD j 0) = j + 1
  | a :: t, hp, 0, _ => by
    have h0 : rank t a = 0 := rank_eq_zero (List.pairwise_cons.mp hp).1
    simp [rank_cons, h0]
  | a :: t, hp, j + 1, hj => by
    have hmem : t.getD j 0 ∈ t := getD_mem t j (by simpa using hj)
    have ha : a ≤ t.getD j 0 := le_of_lt ((List.pairwise_cons.mp hp).1 _ hmem)
    have ih := rank_getD t (List.pairwise_cons.mp hp).2 j (by simpa using hj)
    have hgd : (a :: t).getD (j + 1) 0 = t.getD j 0 := rfl
    rw [hgd, rank_cons, ih, if_pos ha]

theorem rank_eq_length {g : List ℚ} (hp : List.Pairwise (· < ·) g) {x : ℚ}
    (hx : g.getLastD 0 ≤ x) : rank g x = g.length := by
  apply List.countP_eq_length.mpr
  intro a ha
  simpa using le_trans (sorted_mem_le_lastD hp a ha) hx

theorem cellIndex_getD {g : List ℚ} (hp : List.Pairwise (· < ·) g)
    {j : Nat} (hj : j < g.length) :
    cellIndex g (g.getD j 0) = min (g.length - 2) j := by
  rw [cellIndex, rank_getD g hp j hj]
  simp

theorem cellIndex_of_lastD_le {g : List ℚ} (hp : List.Pairwise (· < ·) g)
    (hlen : 2 ≤ g.length) {x : ℚ} (hx : g.getLastD 0 ≤ x) :
    cellIndex g x = g.length - 2 := by
  rw [cellIndex, rank_eq_length hp hx]
  omega

theorem cellIndex_of_le_headD {g : List ℚ} (hp : List.Pairwise (· < ·) g)
    {x : ℚ} (hx : x ≤ g.headD 0) : cellIndex g x = 0 := by
  cases g with
  | nil => simp [cellIndex, rank]
  | cons a t =>
    have h0 : rank t x = 0 := by
      apply rank_eq_zero
      intro y hy
      exact lt_of_le_of_lt (by simpa using hx) ((List.pairwise_cons.mp hp).1 y hy)
    rw [cellIndex, rank_cons, h0]
    rcases le_or_lt a x with h | h
    · rw [if_pos h]
      simp
    · rw [if_neg (not_le.mpr h)]
      simp

/-! ### Clamp lemmas -/

theorem clampCoord_of_in_box {g : List ℚ} {x : ℚ} (h1 : g.headD 0 ≤ x)
    (h2 : x ≤ g.getLastD 0) : clampCoord g x = x := by
  rw [clampCoord, min_eq_right h2, max_eq_right h1]

theorem clampCoord_getD {g : List ℚ} (hp : List.Pairwise (· < ·) g)
    {j : Nat} (hj : j < g.length) : clampCoord g (g.getD j 0) = g.getD j 0 :=
  clampCoord_of_in_box (sorted_headD_le_getD hp hj) (sorted_getD_le_lastD hp hj)

theorem clampCoord_idem {g : List ℚ} (h : g.headD 0 ≤ g.getLastD 0) (x : ℚ) :
    clampCoord g (clampCoord g x) = clampCoord g x :=
  clampCoord_of_in_box (le_max_left _ _)
    (max_le h (min_le_left _ _))

/-! ### Grid-point exactness -/

theorem conformsB_node_nil (ts : List Tensor) :
    Tensor.conformsB (.node ts) [] = false := rfl

theorem conformsB_leaf_cons (v : ℚ) (n : Nat) (ns : List Nat) :
    Tensor.conformsB (.leaf v) (n :: ns) = false := rfl

theorem conformsB_node_cons (ts : List Tensor) (n : Nat) (ns : List Nat) :
    Tensor.conformsB (.node ts) (n :: ns) =
      (decide (ts.length = n) && Tensor.conformsListB ts ns) := rfl

theorem conformsListB_cons (t : Tensor) (ts : List Tensor) (ns : List Nat) :
    Tensor.conformsListB (t :: ts) ns =
      (Tensor.conformsB t ns && Tensor.conformsListB ts ns) := rfl

theorem conformsListB_getD : ∀ (ts : List Tensor) (ns : List Nat) (j : Nat),
    Tensor.conformsListB ts ns = true → j < ts.length →
    Tensor.conformsB (ts.getD j (.leaf 0)) ns = true
  | t :: ts, ns, 0, h, _ => by
    rw [conformsListB_cons] at h
    simp only [Bool.and_eq_true] at h
    exact h.1
  | t :: ts, ns, j + 1, h, hj => by
    rw [conformsListB_cons] at h
    simp only [Bool.and_eq_true] at h
    exact conformsListB_getD ts ns j h.2 (by simpa using hj)

theorem evalML_gridPoint : ∀ (grids : List (List ℚ)) (vals : Tensor) (idx : List Nat),
    wellFormedGrids grids →
    Tensor.conformsB vals (grids.map List.length) = true →
    (∀ p ∈ List.zip grids idx, p.2 < p.1.length) →
    idx.length = grids.length →
    evalML grids vals (gridPoint grids idx) = vals.get idx
  | [], vals, idx, _, hconf, _, hlen => by
    have hidx0 : idx = [] := List.eq_nil_of_length_eq_zero (by simpa using hlen)
    subst hidx0
    cases vals with
    | leaf v => rfl
    | node ts =>
      rw [List.map_nil, conformsB_node_nil] at hconf
      exact Bool.noConfusion hconf
  | g :: gs, vals, idx, hwf, hconf, hidx, hlen => by
    cases vals with
    | leaf v =>
      rw [List.map_cons, conformsB_leaf_cons] at hconf
      exact Bool.noConfusion hconf
    | node ts =>
      cases idx with
      | nil => simp at hlen
      | cons j js =>
        rw [List.map_cons, conformsB_node_cons] at hconf
        simp only [Bool.and_eq_true, decide_eq_true_eq] at hconf
        obtain ⟨htslen, hconfL⟩ := hconf
        have hwfg := hwf g (List.mem_cons_self _ _)
        have hp := pairwise_of_chain' hwfg.2
        have hj : j < g.length := by simpa using hidx (g, j) (List.mem_cons_self _ _)
        have hwfgs : wellFormedGrids gs := fun g' hg' => hwf g' (List.mem_cons_of_mem _ hg')
        have hidxgs : ∀ p ∈ List.zip gs js, p.2 < p.1.length :=
          fun p hp' => hidx p (List.mem_cons_of_mem _ hp')
        have hlengs : js.length = gs.length := by simpa using hlen
        have hstep : gridPoint (g :: gs) (j :: js) = g.getD j 0 :: gridPoint gs js := rfl
        rw [hstep]
        simp only [evalML]
        rw [cellIndex_getD hp hj]
        rcases Nat.lt_or_ge j (g.length - 1) with hcase | hcase
        · rw [min_eq_right (by omega : j ≤ g.length - 2)]
          have hsub : g.getD j 0 - g.getD j 0 = 0 := sub_self _
          rw [hsub, zero_div]
          have ih := evalML_gridPoint gs (ts.getD j (.leaf 0)) js hwfgs
            (conformsListB_getD ts _ j hconfL (by omega)) hidxgs hlengs
          rw [ih]
          simp [Tensor.get]
        · have h2 : 2 ≤ g.length := hwfg.1
          have hj' : j = g.length - 1 := by omega
          rw [min_eq_left (by omega : g.length - 2 ≤ j)]
          have hlt : g.getD (g.length - 2) 0 < g.getD j 0 :=
            pairwise_getD_lt g hp _ _ (by omega) hj
          have hx1 : g.length - 2 + 1 = j := by omega
          rw [hx1, div_self (ne_of_gt (sub_pos.mpr hlt))]
          have ih := evalML_gridPoint gs (ts.getD j (.leaf 0)) js hwfgs
            (conformsListB_getD ts _ j hconfL (by omega)) hidxgs hlengs
          rw [ih]
          simp [Tensor.get]

theorem ptArgs_cols (c : ℚ) (cs : List ℚ) :
    ((ptArgs (c :: cs)).map asarray).map NpArray.data
      = (c :: cs).map (fun x => [x]) := by
  simp only [ptArgs, List.map_map]
  rfl

theorem column_stack_singles (c : ℚ) (cs : List ℚ) :
    column_stack ((c :: cs).map (fun x => [x])) = some [c :: cs] := by
  have hall : (([c] :: cs.map (fun x : ℚ => [x])).all
      (fun col => decide (col.length = ([c] : List ℚ).length))) = true := by
    rw [List.all_eq_true]
    intro col hcol
    rcases List.mem_cons.mp hcol with rfl | hcol
    · simp
    · obtain ⟨x, _, rfl⟩ := List.mem_map.mp hcol
      simp
  simp only [column_stack, List.map_cons, List.head?_cons]
  rw [if_pos hall]
  simp only [List.length_cons, List.length_nil, List.range_succ,
    List.range_zero, List.map_map, List.nil_append, List.map_nil,
    List.map_cons]
  have hid : ((fun col : List ℚ => col.getD 0 0) ∘ fun x : ℚ => [x]) = fun x : ℚ => x := rfl
  rw [hid, List.map_id']
  rfl

theorem call_ptArgs (lf : LinearFast) (c : ℚ) (cs : List ℚ) :
    lf.call (ptArgs (c :: cs)) =
      some ⟨[1], [evalML lf.grid_list lf.f_val
        (applyModePt lf.extrap_options lf.grid_list (c :: cs))]⟩ := by
  have h1 : lf.call (ptArgs (c :: cs)) =
      (column_stack (((ptArgs (c :: cs)).map asarray).map NpArray.data)).bind
        (fun pts => npReshape (eval_linear lf.grid_list lf.f_val pts
          lf.extrap_options) [1]) := rfl
  rw [h1, ptArgs_cols, column_stack_singles]
  simp [eval_linear, npReshape]

theorem sorted_headD_le_lastD {g : List ℚ} (h2 : 2 ≤ g.length)
    (hp : List.Pairwise (· < ·) g) : g.headD 0 ≤ g.getLastD 0 := by
  cases g with
  | nil => simp at h2
  | cons a t =>
    have h0 : (a :: t).headD 0 = (a :: t).getD 0 0 := rfl
    rw [h0]
    exact sorted_getD_le_lastD hp (by simp)

theorem applyModePt_gridPoint (opt : ExtrapOption) :
    ∀ (grids : List (List ℚ)) (idx : List Nat),
      wellFormedGrids grids →
      (∀ p ∈ List.zip grids idx, p.2 < p.1.length) →
      applyModePt opt grids (gridPoint grids idx) = gridPoint grids idx
  | [], _, _, _ => rfl
  | _ :: _, [], _, _ => rfl
  | g :: gs, j :: js, hwf, hidx => by
    have hwfg := hwf g (List.mem_cons_self _ _)
    have hp := pairwise_of_chain' hwfg.2
    have hj : j < g.length := by simpa using hidx (g, j) (List.mem_cons_self _ _)
    have ih := applyModePt_gridPoint opt gs js
      (fun g' hg' => hwf g' (List.mem_cons_of_mem _ hg'))
      (fun p hp' => hidx p (List.mem_cons_of_mem _ hp'))
    have hstep : gridPoint (g :: gs) (j :: js) = g.getD j 0 :: gridPoint gs js := rfl
    rw [hstep]
    show opt.apply g (g.getD j 0) :: applyModePt opt gs (gridPoint gs js) = _
    rw [ih]
    cases opt with
    | LINEAR => rfl
    | NEAREST =>
      show clampCoord g (g.getD j 0) :: _ = _
      rw [clampCoord_getD hp hj]
    | CONSTANT =>
      show clampCoord g (g.getD j 0) :: _ = _
      rw [clampCoord_getD hp hj]

theorem clampPt_idem : ∀ (grids : List (List ℚ)) (pt : List ℚ),
    wellFormedGrids grids → clampPt grids (clampPt grids pt) = clampPt grids pt
  | [], _, _ => rfl
  | _ :: _, [], _ => rfl
  | g :: gs, c :: cs, hwf => by
    have hwfg := hwf g (List.mem_cons_self _ _)
    have hp := pairwise_of_chain' hwfg.2
    have hhl : g.headD 0 ≤ g.getLastD 0 := sorted_headD_le_lastD hwfg.1 hp
    have ih := clampPt_idem gs cs (fun g' hg' => hwf g' (List.mem_cons_of_mem _ hg'))
    show clampCoord g (clampCoord g c) :: clampPt gs (clampPt gs cs) = _
    rw [clampCoord_idem hhl, ih]
    rfl

/-- C5: for every well-formed interpolator (strictly sorted axes of length
at least two, value tensor conforming to the axis lengths, any recognized
mode) and every query point taken exactly from the grid axes, Evaluate
returns exactly the stored value tensor entry at the corresponding
multi-index. -/
theorem C5_grid_point_exactness (f_val : Tensor) (grids : List (List ℚ))
    (idx : List Nat) (m : String) (lf : LinearFast)
    (hinit : LinearFast.init f_val grids m = Except.ok lf)
    (hwf : wellFormedGrids grids)
    (hconf : Tensor.conformsB f_val (grids.map List.length) = true)
    (hlen : idx.length = grids.length)
    (hidx : ∀ p ∈ List.zip grids idx, p.2 < p.1.length)
    (hne : grids ≠ []) :
    lf.call (ptArgs (gridPoint grids idx)) = some ⟨[1], [f_val.get idx]⟩ := by
  obtain ⟨opt, rfl⟩ : ∃ opt : ExtrapOption,
      lf = ⟨grids.length, f_val, grids, m, opt⟩ := by
    unfold LinearFast.init at hinit
    cases h : extrap_opts m with
    | none => rw [h] at hinit; exact absurd hinit (by simp)
    | some opt =>
      rw [h] at hinit
      injection hinit with h2
      exact ⟨opt, h2.symm⟩
  cases grids with
  | nil => exact absurd rfl hne
  | cons g gs =>
    cases idx with
    | nil => simp at hlen
    | cons j js =>
      have hstep : gridPoint (g :: gs) (j :: js) =
          g.getD j 0 :: gridPoint gs js := rfl
      rw [hstep, call_ptArgs, ← hstep]
      show some (⟨[1], [evalML (g :: gs) f_val
        (applyModePt opt (g :: gs) (gridPoint (g :: gs) (j :: js)))]⟩ : NpArray) = _
      rw [applyModePt_gridPoint opt _ _ hwf hidx,
        evalML_gridPoint _ _ _ hwf hconf hidx hlen]

/-- C5 witness: the 2-D interpolator on axes [0,1]×[0,1] with values
[[0,1],[1,2]], queried at the grid point with multi-index (1,0). -/
theorem C5_witness :
    LinearFast.init vals2 grids2 "linear" = Except.ok lf22 ∧
    wellFormedGrids grids2 ∧
    Tensor.conformsB vals2 (grids2.map List.length) = true ∧
    ([1, 0] : List Nat).length = grids2.length ∧
    (∀ p ∈ List.zip grids2 ([1, 0] : List Nat), p.2 < p.1.length) ∧
    grids2 ≠ [] ∧
    lf22.call (ptArgs (gridPoint grids2 [1, 0])) = some ⟨[1], [vals2.get [1, 0]]⟩ := by
  refine ⟨rfl, ?_, by decide, by decide, by decide, by decide, ?_⟩
  · norm_num [wellFormedGrids, grids2]
  · exact C5_grid_point_exactness vals2 grids2 [1, 0] "linear" lf22 rfl
      (by norm_num [wellFormedGrids, grids2]) (by decide) (by decide) (by decide)
      (by decide)

/-- C6: for any query point outside the grid's bounding box (and in fact for
any query point), Evaluate under mode "nearest" and Evaluate on an
otherwise-identical interpolator under mode "constant" return identical
results, and both equal Evaluate at the coordinate-wise clamp of the point
onto the bounding box. -/
theorem C6_nearest_constant_boundary (f_val : Tensor) (grids : List (List ℚ))
    (pt : List ℚ) (lfN lfC : LinearFast)
    (hN : LinearFast.init f_val grids "nearest" = Except.ok lfN)
    (hC : LinearFast.init f_val grids "constant" = Except.ok lfC)
    (hwf : wellFormedGrids grids)
    (hlen : pt.length = grids.length)
    (hout : ¬ inBox grids pt) :
    lfN.call (ptArgs pt) = lfC.call (ptArgs pt) ∧
    lfN.call (ptArgs pt) = lfN.call (ptArgs (clampPt grids pt)) := by
  have e1 : LinearFast.init f_val grids "nearest" =
      Except.ok ⟨grids.length, f_val, grids, "nearest", ExtrapOption.NEAREST⟩ := rfl
  have e2 : LinearFast.init f_val grids "constant" =
      Except.ok ⟨grids.length, f_val, grids, "constant", ExtrapOption.CONSTANT⟩ := rfl
  rw [e1] at hN
  rw [e2] at hC
  injection hN with hN1
  injection hC with hC1
  subst hN1
  subst hC1
  cases pt with
  | nil =>
    exfalso
    apply hout
    intro p hp
    rw [List.zip_nil_right] at hp
    exact absurd hp (List.not_mem_nil p)
  | cons c cs =>
    cases grids with
    | nil => simp at hlen
    | cons g gs =>
      constructor
      · rw [call_ptArgs, call_ptArgs]
        rfl
      · have hc : clampPt (g :: gs) (c :: cs) = clampCoord g c :: clampPt gs cs := rfl
        rw [call_ptArgs, hc, call_ptArgs, ← hc]
        show some (⟨[1], [evalML (g :: gs) f_val
            (applyModePt ExtrapOption.NEAREST (g :: gs) (c :: cs))]⟩ : NpArray) =
          some (⟨[1], [evalML (g :: gs) f_val (applyModePt ExtrapOption.NEAREST
            (g :: gs) (clampPt (g :: gs) (c :: cs)))]⟩ : NpArray)
        have h1 : applyModePt ExtrapOption.NEAREST (g :: gs) (c :: cs)
            = clampPt (g :: gs) (c :: cs) := rfl
        have h2 : applyModePt ExtrapOption.NEAREST (g :: gs)
              (clampPt (g :: gs) (c :: cs))
            = clampPt (g :: gs) (clampPt (g :: gs) (c :: cs)) := rfl
        rw [h1, h2, clampPt_idem _ _ hwf]

/-- C6 witness: 1-D grid [0,1] with values [0,10], query point x = 5 outside
the bounding box. -/
theorem C6_witness :
    LinearFast.init (.node [.leaf 0, .leaf 10]) [[0, 1]] "nearest" = Except.ok lfN01 ∧
    LinearFast.init (.node [.leaf 0, .leaf 10]) [[0, 1]] "constant" = Except.ok lfC01 ∧
    wellFormedGrids [[0, 1]] ∧
    ([5] : List ℚ).length = ([[0, 1]] : List (List ℚ)).length ∧
    ¬ inBox [[0, 1]] [5] ∧
    (lfN01.call (ptArgs [5]) = lfC01.call (ptArgs [5]) ∧
      lfN01.call (ptArgs [5]) = lfN01.call (ptArgs (clampPt [[0, 1]] [5]))) := by
  refine ⟨rfl, rfl, ?_, rfl, ?_, ?_⟩
  · norm_num [wellFormedGrids]
  · norm_num [inBox, List.zip]
  · exact C6_nearest_constant_boundary (.node [.leaf 0, .leaf 10]) [[0, 1]] [5]
      lfN01 lfC01 rfl rfl (by norm_num [wellFormedGrids]) rfl
      (by norm_num [inBox, List.zip])

/-! ### Shape preservation -/

theorem eval_spline_length (G : List (List ℚ)) (f : Tensor) (pts : List (List ℚ))
    (diff : List (List Nat)) (m : String) :
    (eval_spline G f pts diff m).length = pts.length := by
  simp [eval_spline]

theorem eval_spline_row_length (G : List (List ℚ)) (f : Tensor)
    (pts : List (List ℚ)) (diff : List (List Nat)) (m : String) :
    ∀ row ∈ eval_spline G f pts diff m, row.length = diff.length := by
  intro row hr
  simp only [eval_spline, List.mem_map] at hr
  obtain ⟨pt, _, rfl⟩ := hr
  simp

theorem gradTuple_length (d : Nat) : (gradTuple d).length = d := by
  simp [gradTuple]

theorem getCol_spec : ∀ (m : List (List ℚ)) (j : Nat),
    (∀ row ∈ m, j < row.length) →
    ∃ col, getCol m j = some col ∧ col.length = m.length
  | [], _, _ => ⟨[], rfl, rfl⟩
  | r :: rs, j, h => by
    obtain ⟨col, hcol, hlen⟩ := getCol_spec rs j
      (fun row hr => h row (List.mem_cons_of_mem _ hr))
    have hj : j < r.length := h r (List.mem_cons_self _ _)
    obtain ⟨x, hx⟩ : ∃ x, r.get? j = some x :=
      ⟨r.get ⟨j, hj⟩, List.get?_eq_get hj⟩
    exact ⟨x :: col, by rw [getCol, hx, hcol], by simp [hlen]⟩

theorem colsLoop_spec : ∀ (n : Nat) (dmat : List (List ℚ)) (a0 : NpArray)
    (rest : List PyObj) (sh : List Nat),
    a0.shape = sh →
    (∀ row ∈ dmat, n ≤ row.length) →
    dmat.length = sh.prod →
    ∃ l, colsLoop dmat (PyObj.arr a0 :: rest) n = some l ∧ l.length = n ∧
      ∀ a ∈ l, a.shape = sh
  | 0, _, _, _, _, _, _, _ => ⟨[], rfl, rfl, by simp⟩
  | n + 1, dmat, a0, rest, sh, hsh, hrow, hlen => by
    obtain ⟨l, hl, hllen, hlsh⟩ := colsLoop_spec n dmat a0 rest sh hsh
      (fun row hr => le_trans (by omega) (hrow row hr)) hlen
    obtain ⟨col, hcol, hclen⟩ := getCol_spec dmat n
      (fun row hr => lt_of_lt_of_le (by omega) (hrow row hr))
    refine ⟨l ++ [⟨sh, col⟩], ?_, by simp [hllen], ?_⟩
    · rw [colsLoop, hl, hcol]
      simp [PyObj.shapeAttr, hsh, npReshape, hclen, hlen]
    · intro a ha
      rcases List.mem_append.mp ha with h | h
      · exact hlsh a h
      · simp at h
        subst h
        rfl

/-- C7: for D coordinate arrays of identical shape S (matching the grid
dimension), Evaluate returns a single array of shape S, and Gradient
returns a sequence of exactly D arrays each of shape S. -/
theorem C7_shape_preservation (lf : LinearFast) (args : List PyObj) (S : List Nat)
    (hdim : args.length = lf.dim) (hpos : 0 < lf.dim)
    (hargs : ∀ a ∈ args, ∃ na, a = PyObj.arr na ∧ na.shape = S ∧
      na.data.length = S.prod) :
    (∃ r, lf.call args = some r ∧ r.shape = S) ∧
    (∃ rs, lf.gradient args = some rs ∧ rs.length = lf.dim ∧
      ∀ r ∈ rs, r.shape = S) := by
  cases args with
  | nil => rw [List.length_nil] at hdim; omega
  | cons a rest =>
    obtain ⟨na, rfl, hnash, hnalen⟩ := hargs a (List.mem_cons_self _ _)
    have hcols : ∀ col ∈ ((PyObj.arr na :: rest).map asarray).map NpArray.data,
        col.length = S.prod := by
      intro col hcol
      simp only [List.map_cons, List.map_map, List.mem_cons, List.mem_map,
        Function.comp] at hcol
      rcases hcol with rfl | ⟨b, hb, rfl⟩
      · exact hnalen
      · obtain ⟨nb, rfl, _, hlen2⟩ := hargs b (List.mem_cons_of_mem _ hb)
        exact hlen2
    obtain ⟨pts, hpts, hptslen⟩ := column_stack_spec (by simp) hcols
    constructor
    · rw [call_cons, hpts]
      refine ⟨_, npReshape_eq_some ?_, ?_⟩
      · rw [eval_linear_length, hptslen]
        show S.prod = (asarray (PyObj.arr na)).shape.prod
        rw [show (asarray (PyObj.arr na)).shape = na.shape from rfl, hnash]
      · show (asarray (PyObj.arr na)).shape = S
        rw [show (asarray (PyObj.arr na)).shape = na.shape from rfl, hnash]
    · have hd : lf.gradient (PyObj.arr na :: rest) =
          (column_stack (((PyObj.arr na :: rest).map asarray).map
            NpArray.data)).bind
            (fun pts => colsLoop (eval_spline lf.grid_list lf.f_val pts
              (gradTuple lf.dim) lf.extrap_mode) (PyObj.arr na :: rest)
              lf.dim) := rfl
      rw [hd, hpts]
      exact colsLoop_spec lf.dim _ na rest S hnash
        (fun row hr => by
          rw [eval_spline_row_length _ _ _ _ _ row hr, gradTuple_length])
        (by rw [eval_spline_length, hptslen])

/-- C7 witness: the 2-D interpolator `lf22` queried with two shape-(2,)
coordinate arrays. -/
theorem C7_witness :
    ([PyObj.arr ⟨[2], [1/2, 3/2]⟩, PyObj.arr ⟨[2], [0, 1]⟩] : List PyObj).length
        = lf22.dim ∧
    0 < lf22.dim ∧
    (∀ a ∈ ([PyObj.arr ⟨[2], [1/2, 3/2]⟩, PyObj.arr ⟨[2], [0, 1]⟩] : List PyObj),
      ∃ na, a = PyObj.arr na ∧ na.shape = [2] ∧ na.data.length = ([2] : List Nat).prod) ∧
    ((∃ r, lf22.call [PyObj.arr ⟨[2], [1/2, 3/2]⟩, PyObj.arr ⟨[2], [0, 1]⟩] = some r ∧
        r.shape = [2]) ∧
      (∃ rs, lf22.gradient [PyObj.arr ⟨[2], [1/2, 3/2]⟩, PyObj.arr ⟨[2], [0, 1]⟩]
          = some rs ∧ rs.length = lf22.dim ∧ ∀ r ∈ rs, r.shape = [2])) := by
  have hargs : ∀ a ∈ ([PyObj.arr ⟨[2], [1/2, 3/2]⟩, PyObj.arr ⟨[2], [0, 1]⟩] : List PyObj),
      ∃ na, a = PyObj.arr na ∧ na.shape = [2] ∧ na.data.length = ([2] : List Nat).prod := by
    intro a ha
    rcases List.mem_cons.mp ha with rfl | ha2
    · exact ⟨⟨[2], [1/2, 3/2]⟩, rfl, rfl, rfl⟩
    · rcases List.mem_cons.mp ha2 with rfl | h3
      · exact ⟨⟨[2], [0, 1]⟩, rfl, rfl, rfl⟩
      · exact absurd h3 (List.not_mem_nil a)
  exact ⟨rfl, by decide, hargs,
    C7_shape_preservation lf22 _ [2] rfl (by decide) hargs⟩

/-! ### Linear-extrapolation continuity -/

theorem getD_mem_lists : ∀ (l : List (List ℚ)) (j : Nat), j < l.length →
    l.getD j [] ∈ l
  | a :: _, 0, _ => List.mem_cons_self a _
  | a :: t, j + 1, h =>
    List.mem_cons_of_mem a (getD_mem_lists t j (by simpa using h))

theorem applyModePt_linear : ∀ (grids : List (List ℚ)) (pt : List ℚ),
    pt.length = grids.length → applyModePt ExtrapOption.LINEAR grids pt = pt
  | [], [], _ => rfl
  | [], _ :: _, h => by simp at h
  | _ :: _, [], h => by simp at h
  | g :: gs, c :: cs, h => by
    show c :: applyModePt ExtrapOption.LINEAR gs cs = c :: cs
    rw [applyModePt_linear gs cs (by simpa using h)]

theorem evalAt_eq (lf : LinearFast) (q : List ℚ) (hq : q ≠ []) :
    lf.evalAt q = evalML lf.grid_list lf.f_val
      (applyModePt lf.extrap_options lf.grid_list q) := by
  cases q with
  | nil => exact absurd rfl hq
  | cons c cs =>
    rw [LinearFast.evalAt, call_ptArgs]
    rfl

theorem evalML_cons_node (g : List ℚ) (gs : List (List ℚ)) (ts : List Tensor)
    (x : ℚ) (xs : List ℚ) :
    evalML (g :: gs) (.node ts) (x :: xs) =
      (1 - (x - g.getD (cellIndex g x) 0) /
        (g.getD (cellIndex g x + 1) 0 - g.getD (cellIndex g x) 0)) *
        evalML gs (ts.getD (cellIndex g x) (.leaf 0)) xs
      + ((x - g.getD (cellIndex g x) 0) /
        (g.getD (cellIndex g x + 1) 0 - g.getD (cellIndex g x) 0)) *
        evalML gs (ts.getD (cellIndex g x + 1) (.leaf 0)) xs := rfl

theorem evalML_affine : ∀ (grids : List (List ℚ)) (vals : Tensor) (k i0 : Nat)
    (pt : List ℚ), ∃ A B : ℚ, ∀ x : ℚ, cellIndex (grids.getD k []) x = i0 →
      evalML grids vals (pt.set k x) = A * x + B
  | [], .leaf v, _, _, _ => ⟨0, v, fun x _ => by rw [zero_mul, zero_add]; rfl⟩
  | [], .node _, _, _, _ => ⟨0, 0, fun x _ => by rw [zero_mul, zero_add]; rfl⟩
  | _ :: _, .leaf v, _, _, _ => ⟨0, v, fun x _ => by rw [zero_mul, zero_add]; rfl⟩
  | _ :: _, .node _, _, _, [] => ⟨0, 0, fun x _ => by rw [zero_mul, zero_add]; rfl⟩
  | g :: gs, .node ts, 0, i0, p :: ps => by
    obtain ⟨E0, hE0⟩ : ∃ E : ℚ, E = evalML gs (ts.getD i0 (.leaf 0)) ps := ⟨_, rfl⟩
    obtain ⟨E1, hE1⟩ : ∃ E : ℚ, E = evalML gs (ts.getD (i0 + 1) (.leaf 0)) ps := ⟨_, rfl⟩
    obtain ⟨x0, hx0⟩ : ∃ y : ℚ, y = g.getD i0 0 := ⟨_, rfl⟩
    obtain ⟨x1, hx1⟩ : ∃ y : ℚ, y = g.getD (i0 + 1) 0 := ⟨_, rfl⟩
    refine ⟨(E1 - E0) / (x1 - x0), E0 - x0 * ((E1 - E0) / (x1 - x0)),
      fun x hx => ?_⟩
    rw [show (g :: gs).getD 0 [] = g from rfl] at hx
    rw [show (p :: ps).set 0 x = x :: ps from rfl, evalML_cons_node, hx,
      ← hE0, ← hE1, ← hx0, ← hx1]
    rcases eq_or_ne (x1 - x0) 0 with hd | hd
    · rw [hd]
      simp
    · field_simp
      ring
  | g :: gs, .node ts, k + 1, i0, p :: ps => by
    obtain ⟨A0, B0, h0⟩ :=
      evalML_affine gs (ts.getD (cellIndex g p) (.leaf 0)) k i0 ps
    obtain ⟨A1, B1, h1⟩ :=
      evalML_affine gs (ts.getD (cellIndex g p + 1) (.leaf 0)) k i0 ps
    obtain ⟨lam, hlam⟩ : ∃ lam : ℚ, lam = (p - g.getD (cellIndex g p) 0) /
        (g.getD (cellIndex g p + 1) 0 - g.getD (cellIndex g p) 0) := ⟨_, rfl⟩
    refine ⟨(1 - lam) * A0 + lam * A1, (1 - lam) * B0 + lam * B1,
      fun x hx => ?_⟩
    have hx' : cellIndex (gs.getD k []) x = i0 := hx
    rw [show (p :: ps).set (k + 1) x = p :: ps.set k x from rfl,
      evalML_cons_node, ← hlam, h0 x hx', h1 x hx']
    ring

/-- C8: under mode "linear", Evaluate is continuous across each grid
boundary: varying one coordinate from outside the bounding box toward the
boundary knot of that axis (upper or lower), the evaluation converges, in
the ε-δ sense, to the evaluation at the boundary point itself. -/
theorem C8_linear_extrapolation_continuity
    (lf : LinearFast) (k : Nat) (pt : List ℚ) (ε : ℚ)
    (hmode : lf.extrap_options = ExtrapOption.LINEAR)
    (hwf : wellFormedGrids lf.grid_list)
    (hk : k < lf.grid_list.length)
    (hlen : pt.length = lf.grid_list.length)
    (hε : 0 < ε) :
    ∃ δ : ℚ, 0 < δ ∧
      (∀ x : ℚ, (lf.grid_list.getD k []).getLastD 0 < x →
        x - (lf.grid_list.getD k []).getLastD 0 < δ →
        |lf.evalAt (pt.set k x) -
          lf.evalAt (pt.set k ((lf.grid_list.getD k []).getLastD 0))| < ε) ∧
      (∀ x : ℚ, x < (lf.grid_list.getD k []).headD 0 →
        (lf.grid_list.getD k []).headD 0 - x < δ →
        |lf.evalAt (pt.set k x) -
          lf.evalAt (pt.set k ((lf.grid_list.getD k []).headD 0))| < ε) := by
  have hwfk := hwf (lf.grid_list.getD k []) (getD_mem_lists _ k hk)
  have hp := pairwise_of_chain' hwfk.2
  have h2 : 2 ≤ (lf.grid_list.getD k []).length := hwfk.1
  have heval : ∀ x : ℚ, lf.evalAt (pt.set k x) =
      evalML lf.grid_list lf.f_val (pt.set k x) := by
    intro x
    have hpos : 0 < (pt.set k x).length := by rw [List.length_set]; omega
    rw [evalAt_eq lf _ (List.length_pos.mp hpos), hmode,
      applyModePt_linear _ _ (by rw [List.length_set, hlen])]
  obtain ⟨A, B, hAB⟩ := evalML_affine lf.grid_list lf.f_val k
    ((lf.grid_list.getD k []).length - 2) pt
  obtain ⟨A2, B2, hAB2⟩ := evalML_affine lf.grid_list lf.f_val k 0 pt
  have hA1 : (0:ℚ) < |A| + 1 := by positivity
  have hA21 : (0:ℚ) < |A2| + 1 := by positivity
  refine ⟨min (ε / (|A| + 1)) (ε / (|A2| + 1)),
    lt_min (div_pos hε hA1) (div_pos hε hA21), ?_, ?_⟩
  · intro x hx hδ
    have e1 := hAB x (cellIndex_of_lastD_le hp h2 (le_of_lt hx))
    have e2 := hAB ((lf.grid_list.getD k []).getLastD 0)
      (cellIndex_of_lastD_le hp h2 le_rfl)
    rw [heval, heval, e1, e2]
    have hdiff : A * x + B - (A * ((lf.grid_list.getD k []).getLastD 0) + B)
        = A * (x - (lf.grid_list.getD k []).getLastD 0) := by ring
    rw [hdiff, abs_mul, abs_of_pos (by linarith :
      (0:ℚ) < x - (lf.grid_list.getD k []).getLastD 0)]
    have hδ' : x - (lf.grid_list.getD k []).getLastD 0 < ε / (|A| + 1) :=
      lt_of_lt_of_le hδ (min_le_left _ _)
    have h1 : (x - (lf.grid_list.getD k []).getLastD 0) * (|A| + 1) < ε :=
      (lt_div_iff hA1).mp hδ'
    nlinarith [abs_nonneg A]
  · intro x hx hδ
    have e1 := hAB2 x (cellIndex_of_le_headD hp (le_of_lt hx))
    have e2 := hAB2 ((lf.grid_list.getD k []).headD 0)
      (cellIndex_of_le_headD hp le_rfl)
    rw [heval, heval, e1, e2]
    have hdiff : A2 * x + B2 - (A2 * ((lf.grid_list.getD k []).headD 0) + B2)
        = -(A2 * ((lf.grid_list.getD k []).headD 0 - x)) := by ring
    rw [hdiff, abs_neg, abs_mul, abs_of_pos (by linarith :
      (0:ℚ) < (lf.grid_list.getD k []).headD 0 - x)]
    have hδ' : (lf.grid_list.getD k []).headD 0 - x < ε / (|A2| + 1) :=
      lt_of_lt_of_le hδ (min_le_right _ _)
    have h1 : ((lf.grid_list.getD k []).headD 0 - x) * (|A2| + 1) < ε :=
      (lt_div_iff hA21).mp hδ'
    nlinarith [abs_nonneg A2]

/-- C8 witness: the 1-D interpolator `lf01` (grid [0,1], mode "linear"),
axis 0, base point [0], ε = 1. -/
theorem C8_witness :
    lf01.extrap_options = ExtrapOption.LINEAR ∧
    wellFormedGrids lf01.grid_list ∧
    0 < lf01.grid_list.length ∧
    ([0] : List ℚ).length = lf01.grid_list.length ∧
    (0:ℚ) < 1 ∧
    (∃ δ : ℚ, 0 < δ ∧
      (∀ x : ℚ, (lf01.grid_list.getD 0 []).getLastD 0 < x →
        x - (lf01.grid_list.getD 0 []).getLastD 0 < δ →
        |lf01.evalAt (([0] : List ℚ).set 0 x) -
          lf01.evalAt (([0] : List ℚ).set 0 ((lf01.grid_list.getD 0 []).getLastD 0))| < 1) ∧
      (∀ x : ℚ, x < (lf01.grid_list.getD 0 []).headD 0 →
        (lf01.grid_list.getD 0 []).headD 0 - x < δ →
        |lf01.evalAt (([0] : List ℚ).set 0 x) -
          lf01.evalAt (([0] : List ℚ).set 0 ((lf01.grid_list.getD 0 []).headD 0))| < 1)) := by
  refine ⟨rfl, ?_, by decide, rfl, by decide, ?_⟩
  · norm_num [wellFormedGrids, lf01]
  · exact C8_linear_extrapolation_continuity lf01 0 [0] 1 rfl
      (by norm_num [wellFormedGrids, lf01]) (by decide) rfl (by decide)
